import Mathlib

/-!
Verification development for the tweet-generator web application.

The embedding models the four source files:
* src/utils/s3.ts               - client persistence facade (save / get / list)
* src/app/api/chat/route.ts     - server route handler keyed into the object store
* src/unnamed/part_000          - gemini route: prompt composition and stream relay
* src/app/dashboard/page.tsx    - chat UI state and submit handler

JavaScript strings are modelled as lists of characters, JSON values as an
inductive type, and the object store as an association list from keys to
stored blobs.  Stored blobs distinguish well-formed JSON bytes (the image of
JSON.stringify, which JSON.parse maps back to the same value) from malformed
bytes (those on which JSON.parse throws); this is the byte-level round-trip
guarantee of JSON.stringify / JSON.parse.  The application never stores JSON
numeric literals (every ChatData field is a string, a list, or an object), so
the JSON model omits numbers.
-/

abbrev JSStr := List Char

/-- Character list of a Lean string literal (JS string contents). -/
def js (s : String) : JSStr := s.data

/-- JSON values as produced and consumed by the app (no numeric literals are
ever stored or returned by this code, so they are omitted). -/
inductive Json where
  | null
  | bool (b : Bool)
  | str (s : JSStr)
  | arr (elems : List Json)
  | obj (fields : List (JSStr × Json))

/-- Left brace character (written via its code point). -/
def lbrace : Char := Char.ofNat 123

/-- Right brace character (written via its code point). -/
def rbrace : Char := Char.ofNat 125

/-- JSON string escaping of quote and backslash characters. -/
def jsonEscape (s : JSStr) : JSStr :=
  (s.map (fun c => if c == '\"' || c == '\\' then ['\\', c] else [c])).flatten

mutual

/-- JSON.stringify on the JSON value model. -/
def jsonStringify : Json → JSStr
  | .null => js "null"
  | .bool b => if b then js "true" else js "false"
  | .str s => '\"' :: jsonEscape s ++ ['\"']
  | .arr es => '[' :: jsonStringifySeq es ++ [']']
  | .obj fs => lbrace :: jsonStringifyFields fs ++ [rbrace]

/-- Comma-separated serialization of a JSON array body. -/
def jsonStringifySeq : List Json → JSStr
  | [] => []
  | e :: es =>
    jsonStringify e ++ (match es with | [] => [] | _ :: _ => [',']) ++ jsonStringifySeq es

/-- Comma-separated serialization of a JSON object body. -/
def jsonStringifyFields : List (JSStr × Json) → JSStr
  | [] => []
  | (k, v) :: fs =>
    '\"' :: jsonEscape k ++ '\"' :: ':' :: jsonStringify v
      ++ (match fs with | [] => [] | _ :: _ => [',']) ++ jsonStringifyFields fs

end

/-- Field lookup in a JSON object (destructuring a parsed body in JS). -/
def jsonField (j : Json) (key : JSStr) : Option Json :=
  match j with
  | .obj fields => fields.lookup key
  | _ => none

/-- Extract a JSON string payload. -/
def jsonAsStr : Json → Option JSStr
  | .str s => some s
  | _ => none

/-- Bytes stored in the object store.  `wellFormed j` are bytes written by
JSON.stringify of the value `j` (JSON.parse recovers `j` from them);
`malformed raw` are bytes that are not valid JSON, on which JSON.parse
throws.  This is the byte-level model of the JSON round-trip. -/
inductive StoredBytes where
  | wellFormed (j : Json)
  | malformed (raw : JSStr)

/-- The character content of a stored blob (Body.transformToString). -/
def bytesToStr : StoredBytes → JSStr
  | .wellFormed j => jsonStringify j
  | .malformed raw => raw

/-- JSON.parse on stored bytes: recovers the value from well-formed bytes and
throws (models as an error) on malformed bytes. -/
def jsonParseBytes : StoredBytes → Except Unit Json
  | .wellFormed j => .ok j
  | .malformed _ => .error ()

/-- The object store: an association list from keys to stored blobs. -/
abbrev Store := List (JSStr × StoredBytes)

/-- PutObjectCommand: overwrites any existing blob at the key. -/
def s3Put (store : Store) (key : JSStr) (v : StoredBytes) : Store :=
  store.filter (fun kv => !(kv.1 == key)) ++ [(key, v)]

/-- GetObjectCommand: the blob at the key, or `none` (the AWS client rejects
with NoSuchKey, which the route surfaces through its catch-all). -/
def s3Get (store : Store) (key : JSStr) : Option StoredBytes :=
  (store.find? (fun kv => kv.1 == key)).map Prod.snd

/-- Whether `p` is a leading segment of `s` (String.startsWith). -/
def jsStartsWith : JSStr → JSStr → Bool
  | [], _ => true
  | _ :: _, [] => false
  | a :: p, b :: s => a == b && jsStartsWith p s

/-- JS String.split with a single-character separator. -/
def splitOnChar (d : Char) : JSStr → List JSStr
  | [] => [[]]
  | c :: rest =>
    match splitOnChar d rest with
    | [] => [[]]
    | h :: t => if c = d then [] :: h :: t else (c :: h) :: t

/-- ListObjectsV2 with a prefix and a delimiter: the distinct common prefixes
formed by the prefix plus the next path segment plus the delimiter, over all
keys extending the prefix that still contain the delimiter afterwards.
(S3 additionally sorts the result; the spec leaves the order unspecified, so
the model keeps store order, deduplicated.) -/
def s3CommonPrefixes (store : Store) (pre : JSStr) (delim : Char) : List JSStr :=
  (((store.map Prod.fst).filter (fun k => jsStartsWith pre k)).filterMap (fun k =>
      let rest := k.drop pre.length
      if delim ∈ rest then
        some (pre ++ rest.takeWhile (fun c => !(c == delim)) ++ [delim])
      else none)).dedup

/-- The storage key `userId/chats/chatId/data.json` built by the route. -/
def chatKey (uid chatId : JSStr) : JSStr :=
  uid ++ js "/chats/" ++ chatId ++ js "/data.json"

/-- The request body of the chat persistence endpoint, as destructured by the
route: `const \x7b action, chatId, chatData \x7d = await req.json()`.  Note
that the body carries no user identity field at all. -/
structure ChatRequest where
  action : JSStr
  chatId : Option JSStr
  chatData : Option Json

/-- Responses of the server routes: a 200 JSON body, or an error status with
a message. -/
inductive ApiResponse where
  | ok (body : Json)
  | err (status : Nat) (message : JSStr)

/-- The body put by the save case: JSON.stringify(chatData).  A missing
chatData field stringifies to undefined, which uploads an empty body. -/
def stringifyBody : Option Json → StoredBytes
  | some j => .wellFormed j
  | none => .malformed []

/-- The chat-id list computed by the list case of the route:
`listResponse.CommonPrefixes?.map(p => p.Prefix?.split(\x27/\x27)[2] || \x27\x27).filter(Boolean)`. -/
def routeListIds (uid : JSStr) (store : Store) : List JSStr :=
  ((s3CommonPrefixes store (uid ++ js "/chats/") '/').map
      (fun p => (splitOnChar '/' p).getD 2 [])).filter (fun c => !c.isEmpty)

/-- The POST handler of src/app/api/chat/route.ts.  The session user comes
from the authentication collaborator (currentUser); a missing session yields
401.  The save / get cases derive the storage key from the session user id
and the request-supplied chatId; the list case lists the common prefixes of
the session user.  Store or parse failures reach the catch-all, which
responds 500.  The handler returns the response together with the store
after any write. -/
def chatRoutePOST (sessionUserId : Option JSStr) (req : ChatRequest) (store : Store) :
    ApiResponse × Store :=
  match sessionUserId with
  | none => (.err 401 (js "Unauthorized"), store)
  | some uid =>
    if req.action = js "save" then
      let key := chatKey uid (req.chatId.getD (js "undefined"))
      (.ok (Json.obj [(js "success", Json.bool true)]),
        s3Put store key (stringifyBody req.chatData))
    else if req.action = js "get" then
      let getKey := chatKey uid (req.chatId.getD (js "undefined"))
      match s3Get store getKey with
      | none => (.err 500 (js "Internal server error"), store)
      | some b =>
        if (bytesToStr b).isEmpty then
          (.ok (Json.obj [(js "data", Json.null)]), store)
        else
          match jsonParseBytes b with
          | .ok j => (.ok (Json.obj [(js "data", j)]), store)
          | .error _ => (.err 500 (js "Internal server error"), store)
    else if req.action = js "list" then
      (.ok (Json.obj [(js "chatIds", Json.arr ((routeListIds uid store).map Json.str))]),
        store)
    else
      (.err 400 (js "Invalid action"), store)

/-- The request body sent by saveChatToS3 in src/utils/s3.ts.  The facade
receives a userId argument but does not include it in the body. -/
def saveChatRequestBody (userId chatId : JSStr) (chatData : Json) : ChatRequest :=
  { action := js "save", chatId := some chatId, chatData := some chatData }

/-- The request body sent by getChatFromS3 (again without the userId). -/
def getChatRequestBody (userId chatId : JSStr) : ChatRequest :=
  { action := js "get", chatId := some chatId, chatData := none }

/-- The request body sent by listUserChats (again without the userId). -/
def listChatsRequestBody (userId : JSStr) : ChatRequest :=
  { action := js "list", chatId := none, chatData := none }

/-- End-to-end saveChatToS3: the facade posts its body to the route and the
route writes the store.  The resulting store is returned. -/
def saveChatToS3 (sessionUserId : Option JSStr) (store : Store)
    (userId chatId : JSStr) (chatData : Json) : Store :=
  (chatRoutePOST sessionUserId (saveChatRequestBody userId chatId chatData) store).2

/-- End-to-end getChatFromS3: posts the get body, and on a 200 response
returns the data field of the body; every error path of the facade returns
null (the catch in getChatFromS3 returns null). -/
def getChatFromS3 (sessionUserId : Option JSStr) (store : Store)
    (userId chatId : JSStr) : Json :=
  match (chatRoutePOST sessionUserId (getChatRequestBody userId chatId) store).1 with
  | .ok body => (jsonField body (js "data")).getD Json.null
  | .err _ _ => Json.null

/-- End-to-end listUserChats: posts the list body, and on a 200 response
returns the chatIds array; every error path returns the empty list (the
catch in listUserChats returns an empty array). -/
def listUserChats (sessionUserId : Option JSStr) (store : Store)
    (userId : JSStr) : List JSStr :=
  match (chatRoutePOST sessionUserId (listChatsRequestBody userId) store).1 with
  | .ok body =>
    match jsonField body (js "chatIds") with
    | some (Json.arr es) => es.filterMap jsonAsStr
    | _ => []
  | .err _ _ => []

/-! ## The chat record data model (ChatData in src/utils/s3.ts) -/

/-- Message roles: the union type in Message. -/
inductive Role where
  | user
  | assistant
deriving DecidableEq

/-- A chat message. -/
structure Message where
  role : Role
  content : JSStr
deriving DecidableEq

/-- The persisted chat record shape (timestamps are ISO strings). -/
structure ChatData where
  id : JSStr
  messages : List Message
  createdAt : JSStr
  updatedAt : JSStr
deriving DecidableEq

/-- The JSON wire representation of a role. -/
def Role.toJsonStr : Role → JSStr
  | .user => js "user"
  | .assistant => js "assistant"

/-- The JSON wire representation of a message. -/
def Message.toJson (m : Message) : Json :=
  .obj [(js "role", .str m.role.toJsonStr), (js "content", .str m.content)]

/-- The JSON wire representation of a chat record, matching the persisted
record wire format. -/
def ChatData.toJson (d : ChatData) : Json :=
  .obj [(js "id", .str d.id),
        (js "messages", .arr (d.messages.map Message.toJson)),
        (js "createdAt", .str d.createdAt),
        (js "updatedAt", .str d.updatedAt)]

/-! ## The gemini route (src/unnamed/part_000): prompt composition and relay -/

/-- The fixed system directive (SYSTEM_PROMPT in the source). -/
def SYSTEM_PROMPT : JSStr := js
  "You are an expert AI Twitter copywriter and creative assistant.\n\nYour role is to help users craft highly engaging, concise, and personalized tweets (under 280 characters) based on detailed input. You must interpret and use all available context to create a compelling tweet aligned with the user\x27s objectives and audience preferences.\n\nKey Requirements:\n1. Keep tweets under 280 characters\n2. Use the provided tone and style\n3. Target the specified audience\n4. Make it engaging and shareable\n5. Avoid sensitive or controversial content\n6. Use emojis sparingly and appropriately\n\nReturn ONLY the tweet text, no explanations or additional text."

/-- JS truthiness of an optional string field (null and the empty string are
falsy). -/
def jsTruthy : Option JSStr → Bool
  | none => false
  | some s => !s.isEmpty

/-- The label used when rendering a prior conversation turn. -/
def roleLabel : Role → JSStr
  | .user => js "User"
  | .assistant => js "Assistant"

/-- One rendered line of conversation context:
`$\x7blabel\x7d: $\x7bmsg.content\x7d\n`. -/
def renderMsg (m : Message) : JSStr :=
  roleLabel m.role ++ js ": " ++ m.content ++ js "\n"

/-- The enhancedPrompt composition of the gemini route: the system directive,
a specifications header, one constraint line per truthy tone / goal /
audience field, the optional conversation-context block, and the user
request footer. -/
def enhancedPrompt (tone goal audience : Option JSStr) (conversationHistory : List Message)
    (prompt : JSStr) : JSStr :=
  let e0 := SYSTEM_PROMPT ++ js "\n\nCreate a tweet with the following specifications:\n"
  let e1 := if jsTruthy tone then e0 ++ js "Tone: " ++ tone.getD [] ++ js "\n" else e0
  let e2 := if jsTruthy goal then e1 ++ js "Goal: " ++ goal.getD [] ++ js "\n" else e1
  let e3 := if jsTruthy audience then
      e2 ++ js "Target Audience: " ++ audience.getD [] ++ js "\n"
    else e2
  let e4 := if conversationHistory.length > 0 then
      conversationHistory.foldl (fun acc m => acc ++ renderMsg m)
        (e3 ++ js "\nPrevious conversation context:\n")
    else e3
  e4 ++ js "\nUser\x27s request: " ++ prompt
    ++ js "\n\nGenerate a tweet that matches these specifications."

/-- Events observable on the ReadableStream handed to the client: an enqueued
text fragment, a clean close, or an errored (aborted) termination. -/
inductive StreamEvent where
  | fragment (text : JSStr)
  | closed
  | errored
deriving DecidableEq

/-- Behaviour of the provider call inside the stream start callback: either
the awaited generateContentStream call (or the very first iteration) fails
before any chunk is produced, or the provider yields a list of chunks and
then either completes normally or throws. -/
inductive ProviderOutcome where
  | failsBeforeFirst
  | yields (chunks : List JSStr) (thenThrows : Bool)

/-- The for-await relay loop: enqueue each chunk text in order, then close on
normal completion of the iterator, or error the controller when the iterator
throws. -/
def relayRun : List JSStr → Bool → List StreamEvent
  | [], false => [.closed]
  | [], true => [.errored]
  | c :: cs, t => .fragment c :: relayRun cs t

/-- The event trace of the ReadableStream start callback for a given provider
outcome: a failure before the first chunk reaches the catch, which errors the
controller; otherwise the relay loop runs. -/
def relayStream : ProviderOutcome → List StreamEvent
  | .failsBeforeFirst => [.errored]
  | .yields cs t => relayRun cs t

/-- The text fragments carried by a stream trace, in order. -/
def streamFragments (events : List StreamEvent) : List JSStr :=
  events.filterMap (fun e => match e with | .fragment t => some t | _ => none)

/-! ## The dashboard UI (src/app/dashboard/page.tsx) -/

/-- The client-side Chat shape (Date values modelled as their string form). -/
structure Chat where
  id : JSStr
  messages : List Message
  createdAt : JSStr
  updatedAt : JSStr
deriving DecidableEq

/-- The React state of the dashboard component. -/
structure UIState where
  chats : List Chat
  currentChatId : JSStr
  messages : List Message
  input : JSStr
  isLoading : Bool
  tone : JSStr
  goal : JSStr
  audience : JSStr
  currentStreamingMessage : JSStr
deriving DecidableEq

/-- One invocation of the persistence facade saveChatToS3(userId, chatId,
chatData) issued by the dashboard. -/
structure SaveCall where
  userId : JSStr
  chatId : JSStr
  data : ChatData
deriving DecidableEq

/-- The body of the fetch to the gemini endpoint issued by handleSubmit. -/
structure GenRequest where
  prompt : JSStr
  tone : Option JSStr
  goal : Option JSStr
  audience : Option JSStr
  conversationHistory : List Message
deriving DecidableEq

/-- Outcome of the generation fetch as observed by handleSubmit: either the
response streams a list of chunks to completion, or an error is thrown
(failed fetch, non-ok response, missing body, or a mid-stream read error)
after the listed chunks were received. -/
inductive GenOutcome where
  | success (chunks : List JSStr)
  | failure (chunksBeforeError : List JSStr)

/-- Whether JSX renders the submit button disabled: `disabled=\x7bisLoading\x7d`. -/
def submitButtonDisabled (s : UIState) : Bool := s.isLoading

/-- Whether JSX renders the New Chat button disabled: the button carries no
disabled attribute. -/
def newChatButtonDisabled (s : UIState) : Bool := false

/-- Whether JSX renders a chat list item inert: the item carries an
unconditional onClick and no disabled attribute. -/
def chatListItemDisabled (s : UIState) : Bool := false

/-- createNewChat (dashboard lines 93-114): appends a fresh chat whose id and
timestamps come from the current instant, makes it current, clears messages,
input and the streaming buffer, and (when a user id is present) saves the
fresh record.  It neither reads nor writes the loading flag. -/
def createNewChat (now : JSStr) (userId : Option JSStr) (s : UIState) :
    UIState × List SaveCall :=
  let newChat : Chat := { id := now, messages := [], createdAt := now, updatedAt := now }
  let s1 := { s with chats := s.chats ++ [newChat], currentChatId := newChat.id,
                     messages := [], input := [], currentStreamingMessage := [] }
  match userId with
  | some uid =>
    (s1, [{ userId := uid, chatId := newChat.id,
            data := { id := newChat.id, messages := newChat.messages,
                      createdAt := newChat.createdAt, updatedAt := newChat.updatedAt } }])
  | none => (s1, [])

/-- Selecting a chat from the sidebar: the onClick sets currentChatId, and
the effect watching (currentChatId, chats) copies that chat messages into the
message list when the chat is found. -/
def selectChat (chatId : JSStr) (s : UIState) : UIState :=
  let s1 := { s with currentChatId := chatId }
  match s1.chats.find? (fun c => c.id == chatId) with
  | some c => { s1 with messages := c.messages }
  | none => s1

/-- saveChat (dashboard lines 136-163): no-op without a user id or when the
chat id is not in the chat list; otherwise refreshes the chat record with the
updated messages and timestamp, updates the chat list, and calls the
persistence facade (whose failure is swallowed). -/
def saveChat (userId : Option JSStr) (now : JSStr) (s : UIState)
    (chatId : JSStr) (updatedMessages : List Message) : UIState × List SaveCall :=
  match userId with
  | none => (s, [])
  | some uid =>
    match s.chats.find? (fun c => c.id == chatId) with
    | none => (s, [])
    | some chat =>
      let updatedChat : Chat := { chat with messages := updatedMessages, updatedAt := now }
      let s1 := { s with
        chats := s.chats.map (fun c => if c.id == chatId then updatedChat else c) }
      (s1, [{ userId := uid, chatId := chatId,
              data := { id := updatedChat.id, messages := updatedChat.messages,
                        createdAt := updatedChat.createdAt,
                        updatedAt := updatedChat.updatedAt } }])

/-- JS whitespace characters stripped by String.trim (the ASCII ones the
input can contain). -/
def jsWhitespace (c : Char) : Bool :=
  c == ' ' || c == '\t' || c == '\n' || c == '\r' || c == '\x0b' || c == '\x0c'

/-- JS String.trim: strip leading and trailing whitespace. -/
def jsTrim (s : JSStr) : JSStr :=
  ((s.dropWhile jsWhitespace).reverse.dropWhile jsWhitespace).reverse

/-- `messages.slice(-4)`: the last four messages (all of them when fewer). -/
def sliceLast4 (l : List Message) : List Message := l.drop (l.length - 4)

/-- The fixed apology text substituted for the assistant turn on error. -/
def apologyText : JSStr := js "Sorry, I encountered an error. Please try again."

/-- handleSubmit (dashboard lines 165-244) as a function of the pre-state and
the generation outcome.  Returns the post-state, the generation request body
issued (none when the handler returned early), and the saveChatToS3 calls
made, in order.  A blank (all-whitespace) input returns before any state
update.  Otherwise the user message is appended and saved, the generation
request is issued, and on success the accumulated text is appended and saved
while on failure the fixed apology message is appended and saved; the catch
path leaves the streaming buffer holding whatever had accumulated, and the
finally clause clears the loading flag. -/
def handleSubmit (userId : Option JSStr) (now : JSStr) (s : UIState)
    (outcome : GenOutcome) : UIState × Option GenRequest × List SaveCall :=
  if jsTrim s.input = [] then (s, none, [])
  else
    let userMessage : Message := { role := .user, content := s.input }
    let updatedMessages := s.messages ++ [userMessage]
    let s1 := { s with messages := updatedMessages, input := [], isLoading := true,
                       currentStreamingMessage := [] }
    let r1 := saveChat userId now s1 s.currentChatId updatedMessages
    let req : GenRequest :=
      { prompt := s.input,
        tone := if s.tone = js "None" then none else some s.tone,
        goal := if s.goal = js "None" then none else some s.goal,
        audience := if s.audience = js "None" then none else some s.audience,
        conversationHistory := sliceLast4 s.messages }
    match outcome with
    | .success chunks =>
      let accumulated := chunks.flatten
      let finalMessages := updatedMessages ++ [{ role := .assistant, content := accumulated }]
      let s2 := { r1.1 with messages := finalMessages, currentStreamingMessage := [] }
      let r2 := saveChat userId now s2 s.currentChatId finalMessages
      ({ r2.1 with isLoading := false }, some req, r1.2 ++ r2.2)
    | .failure chunksBeforeError =>
      let errorMessages := updatedMessages ++ [{ role := .assistant, content := apologyText }]
      let s2 := { r1.1 with messages := errorMessages,
                            currentStreamingMessage := chunksBeforeError.flatten }
      let r2 := saveChat userId now s2 s.currentChatId errorMessages
      ({ r2.1 with isLoading := false }, some req, r1.2 ++ r2.2)

/-! ## Auxiliary definitions used by the statements -/

/-- The provider call fails before any fragment is produced: either the
awaited generateContentStream call rejects, or the chunk iterator throws
before its first element. -/
def failsBeforeAnyFragment (o : ProviderOutcome) : Prop :=
  o = .failsBeforeFirst ∨ o = .yields [] true

/-- The lines contributed by the system directive and the specifications
header of every composed prompt. -/
def baseLines : List JSStr :=
  splitOnChar '\n' (SYSTEM_PROMPT ++ js "\n\nCreate a tweet with the following specifications:")

/-- The single context line a prior turn contributes to the composed
prompt. -/
def msgLine (m : Message) : JSStr := roleLabel m.role ++ js ": " ++ m.content

/-- A concrete dashboard state whose loading flag is set (a generation
request in flight, first fragments already streaming). -/
def loadingState : UIState :=
  { chats := [{ id := js "1", messages := [], createdAt := js "t0", updatedAt := js "t0" },
              { id := js "2", messages := [], createdAt := js "t1", updatedAt := js "t1" }],
    currentChatId := js "1",
    messages := [{ role := .user, content := js "hi" }],
    input := [],
    isLoading := true,
    tone := js "None", goal := js "None", audience := js "None",
    currentStreamingMessage := js "Red p" }

/-- A concrete chat record used by the witness states. -/
def chat0 : Chat := { id := js "1", messages := [], createdAt := js "t0", updatedAt := js "t0" }

/-- A concrete dashboard state ready to submit a non-blank input. -/
def submitReadyState : UIState :=
  { chats := [chat0],
    currentChatId := js "1",
    messages := [],
    input := js "hello",
    isLoading := false,
    tone := js "None", goal := js "None", audience := js "None",
    currentStreamingMessage := [] }

/-- A concrete dashboard state whose input consists only of whitespace. -/
def blankInputState : UIState :=
  { chats := [{ id := js "1", messages := [], createdAt := js "t0", updatedAt := js "t0" }],
    currentChatId := js "1",
    messages := [],
    input := js "  \n\t ",
    isLoading := false,
    tone := js "None", goal := js "None", audience := js "None",
    currentStreamingMessage := [] }

/-! # Theorems -/

/-! ## General helper lemmas -/

theorem relayRun_success (cs : List JSStr) :
    relayRun cs false = cs.map StreamEvent.fragment ++ [StreamEvent.closed] := by
  induction cs with
  | nil => rfl
  | cons c cs ih => simp [relayRun, ih]

theorem streamFragments_map_fragment (cs : List JSStr) (tail : List StreamEvent) :
    streamFragments (cs.map StreamEvent.fragment ++ tail) = cs ++ streamFragments tail := by
  induction cs with
  | nil => rfl
  | cons c cs ih => simp [streamFragments, List.filterMap] at ih ⊢; exact ih

/-! ## C3 and C4: the completion relay -/

/-- C3: if the provider call fails before yielding any fragment, the stream
trace carries zero fragments and terminates in the errored condition, never
a clean close (no spurious empty success). -/
theorem relay_fails_before_first_errors (o : ProviderOutcome)
    (h : failsBeforeAnyFragment o) :
    relayStream o = [StreamEvent.errored] ∧
    streamFragments (relayStream o) = [] ∧
    StreamEvent.closed ∉ relayStream o := by
  rcases h with rfl | rfl <;> exact ⟨rfl, rfl, by decide⟩

theorem relay_fails_before_first_errors_witness :
    failsBeforeAnyFragment ProviderOutcome.failsBeforeFirst ∧
    (relayStream ProviderOutcome.failsBeforeFirst = [StreamEvent.errored] ∧
     streamFragments (relayStream ProviderOutcome.failsBeforeFirst) = [] ∧
     StreamEvent.closed ∉ relayStream ProviderOutcome.failsBeforeFirst) :=
  ⟨Or.inl rfl, relay_fails_before_first_errors _ (Or.inl rfl)⟩

/-- C4: for a successful generation, the relay enqueues exactly the provider
chunks, unaltered and in provider order, followed by a single clean close at
end-of-generation; the fragments concatenate to the provider final text and
no error condition is raised. -/
theorem relay_success_exact_order (chunks : List JSStr) :
    relayStream (.yields chunks false) =
      chunks.map StreamEvent.fragment ++ [StreamEvent.closed] ∧
    streamFragments (relayStream (.yields chunks false)) = chunks ∧
    (streamFragments (relayStream (.yields chunks false))).flatten = chunks.flatten ∧
    (relayStream (.yields chunks false)).getLast? = some StreamEvent.closed ∧
    (relayStream (.yields chunks false)).count StreamEvent.closed = 1 ∧
    StreamEvent.errored ∉ relayStream (.yields chunks false) := by
  have h1 : relayStream (.yields chunks false) =
      chunks.map StreamEvent.fragment ++ [StreamEvent.closed] := relayRun_success chunks
  have h2 : streamFragments (relayStream (.yields chunks false)) = chunks := by
    rw [h1, streamFragments_map_fragment]
    show chunks ++ [] = chunks
    simp
  refine ⟨h1, h2, by rw [h2], ?_, ?_, ?_⟩
  · rw [h1]; simp
  · rw [h1]; simp [List.count_append, List.count_eq_zero]
  · rw [h1]; simp

theorem isEmpty_false_of_ne_nil {α : Type} (l : List α) (h : l ≠ []) : l.isEmpty = false := by
  cases l with
  | nil => exact absurd rfl h
  | cons a t => rfl

theorem jsonStringify_ne_nil (j : Json) : jsonStringify j ≠ [] := by
  cases j with
  | null => simp [jsonStringify]; decide
  | bool b => cases b <;> simp [jsonStringify] <;> decide
  | str s => simp [jsonStringify]
  | arr es => simp [jsonStringify]
  | obj fs => simp [jsonStringify]

theorem s3Get_put_same (store : Store) (k : JSStr) (v : StoredBytes) :
    s3Get (s3Put store k v) k = some v := by
  have h1 : (store.filter (fun kv => !(kv.1 == k))).find? (fun kv => kv.1 == k) = none := by
    rw [List.find?_eq_none]
    intro x hx
    have hq := (List.mem_filter.mp hx).2
    simp at hq
    simp [hq]
  unfold s3Put s3Get
  rw [List.find?_append, h1, Option.none_or, List.find?_cons_of_pos _ (by simp)]
  rfl

theorem jsTrim_eq_nil_of_all_ws (s : JSStr) (h : ∀ c ∈ s, jsWhitespace c = true) :
    jsTrim s = [] := by
  have h1 : s.dropWhile jsWhitespace = [] := List.dropWhile_eq_nil_iff.mpr h
  simp [jsTrim, h1]

theorem find?_map_update (chats : List Chat) (cid : JSStr) (chat upd : Chat)
    (h : chats.find? (fun c => c.id == cid) = some chat) (hid : upd.id = chat.id) :
    (chats.map (fun c => if c.id == cid then upd else c)).find? (fun c => c.id == cid) =
      some upd := by
  induction chats with
  | nil => simp at h
  | cons c rest ih =>
    cases hc : (c.id == cid) with
    | true =>
      rw [@List.find?_cons_of_pos _ (fun c => c.id == cid) c rest hc] at h
      injection h with h'
      subst h'
      simp only [List.map_cons, if_pos (by exact hc : (c.id == cid) = true)]
      have hupd : (upd.id == cid) = true := by rw [hid]; exact hc
      exact @List.find?_cons_of_pos _ (fun c => c.id == cid) upd _ hupd
    | false =>
      have hcn : ¬((c.id == cid) = true) := by rw [hc]; exact Bool.false_ne_true
      rw [@List.find?_cons_of_neg _ (fun c => c.id == cid) c rest hcn] at h
      simp only [List.map_cons, if_neg hcn]
      rw [@List.find?_cons_of_neg _ (fun c => c.id == cid) c _ hcn]
      exact ih h

theorem saveChat_found (u now : JSStr) (s : UIState) (chatId : JSStr)
    (msgs : List Message) (chat : Chat)
    (hfind : s.chats.find? (fun c => c.id == chatId) = some chat) :
    saveChat (some u) now s chatId msgs =
      ({ s with chats := s.chats.map (fun c =>
            if c.id == chatId then { chat with messages := msgs, updatedAt := now } else c) },
       [{ userId := u, chatId := chatId,
          data := { id := chat.id, messages := msgs, createdAt := chat.createdAt,
                    updatedAt := now } }]) := by
  simp [saveChat, hfind]

theorem Role.toJsonStr_injective : Function.Injective Role.toJsonStr := by
  intro a b h
  cases a <;> cases b <;> first
    | rfl
    | exact absurd h (by decide)

theorem messageToJson_injective : Function.Injective Message.toJson := by
  intro m1 m2 h
  simp only [Message.toJson, Json.obj.injEq, List.cons.injEq, Prod.mk.injEq,
    Json.str.injEq, and_true, true_and] at h
  obtain ⟨hr, hc⟩ := h
  cases m1; cases m2
  simp_all
  exact Role.toJsonStr_injective hr

theorem chatDataToJson_injective : Function.Injective ChatData.toJson := by
  intro d1 d2 h
  simp only [ChatData.toJson, Json.obj.injEq, List.cons.injEq, Prod.mk.injEq,
    Json.str.injEq, Json.arr.injEq, and_true, true_and] at h
  obtain ⟨h1, h2, h3, h4⟩ := h
  cases d1; cases d2
  simp_all
  exact List.map_injective_iff.mpr messageToJson_injective h2

/-! ## C10: blank input is a no-op -/

/-- C10: submitting an input that is empty or consists only of whitespace
returns before any state update: the state (messages, chats, loading flag,
streaming buffer, everything) is unchanged, no generation request is issued,
and no persistence call is made. -/
theorem handleSubmit_blank_noop (userId : Option JSStr) (now : JSStr) (s : UIState)
    (outcome : GenOutcome) (h : ∀ c ∈ s.input, jsWhitespace c = true) :
    handleSubmit userId now s outcome = (s, none, []) := by
  have h1 : jsTrim s.input = [] := jsTrim_eq_nil_of_all_ws _ h
  unfold handleSubmit
  rw [if_pos h1]

theorem handleSubmit_blank_noop_witness :
    (∀ c ∈ blankInputState.input, jsWhitespace c = true) ∧
    handleSubmit none (js "t1") blankInputState (.failure []) = (blankInputState, none, []) :=
  ⟨by decide, handleSubmit_blank_noop none (js "t1") blankInputState (.failure []) (by decide)⟩

/-! ## C7: the stream-error fallback message -/

/-- C7: when the generation request fails (mid-stream or before), the handler
appends the fixed apology message as the assistant turn after the user
message, clears the loading flag, and the final persistence call saves the
record containing exactly that fallback conversation. -/
theorem handleSubmit_failure_fallback (u now : JSStr) (s : UIState)
    (chunks : List JSStr) (chat : Chat)
    (hinput : jsTrim s.input ≠ [])
    (hfind : s.chats.find? (fun c => c.id == s.currentChatId) = some chat) :
    (handleSubmit (some u) now s (.failure chunks)).1.messages =
      s.messages ++ [{ role := .user, content := s.input },
                     { role := .assistant, content := apologyText }] ∧
    (handleSubmit (some u) now s (.failure chunks)).1.isLoading = false ∧
    (handleSubmit (some u) now s (.failure chunks)).2.2.getLast? =
      some { userId := u, chatId := s.currentChatId,
             data := { id := chat.id,
                       messages := s.messages ++
                         [{ role := .user, content := s.input },
                          { role := .assistant, content := apologyText }],
                       createdAt := chat.createdAt, updatedAt := now } } := by
  have hfind2 : ((s.chats.map (fun c => if c.id == s.currentChatId then
        { chat with messages := s.messages ++ [{ role := .user, content := s.input }],
                    updatedAt := now } else c)).find?
      (fun c => c.id == s.currentChatId)) =
      some { chat with messages := s.messages ++ [{ role := .user, content := s.input }],
                       updatedAt := now } :=
    find?_map_update s.chats s.currentChatId chat _ hfind rfl
  unfold handleSubmit
  rw [if_neg hinput]
  simp only [saveChat, hfind, hfind2]
  refine ⟨?_, ?_, ?_⟩ <;> simp

theorem handleSubmit_failure_fallback_witness :
    (jsTrim submitReadyState.input ≠ []) ∧
    (submitReadyState.chats.find? (fun c => c.id == submitReadyState.currentChatId) =
      some chat0) ∧
    ((handleSubmit (some (js "u")) (js "t2") submitReadyState (.failure [])).1.messages =
        submitReadyState.messages ++
          [{ role := .user, content := submitReadyState.input },
           { role := .assistant, content := apologyText }] ∧
      (handleSubmit (some (js "u")) (js "t2") submitReadyState (.failure [])).1.isLoading =
        false ∧
      (handleSubmit (some (js "u")) (js "t2") submitReadyState (.failure [])).2.2.getLast? =
        some { userId := js "u", chatId := submitReadyState.currentChatId,
               data := { id := chat0.id,
                         messages := submitReadyState.messages ++
                           [{ role := .user, content := submitReadyState.input },
                            { role := .assistant, content := apologyText }],
                         createdAt := chat0.createdAt, updatedAt := js "t2" } }) :=
  ⟨by decide, by decide,
    handleSubmit_failure_fallback (js "u") (js "t2") submitReadyState [] chat0
      (by decide) (by decide)⟩

/-! ## C5: chat creation and switching during loading -/

/-- C5 counterexample: in a state with the loading flag set (a generation
request in flight), clicking New Chat and clicking another chat in the list
both take effect and change the state, so those transitions are not confined
to idle or settled states; the loading flag does not disable them. -/
theorem newChat_switch_during_loading_counterexample :
    loadingState.isLoading = true ∧
    (createNewChat (js "3") (some (js "u")) loadingState).1 ≠ loadingState ∧
    selectChat (js "2") loadingState ≠ loadingState ∧
    (createNewChat (js "3") (some (js "u")) loadingState).1.currentChatId ≠
      loadingState.currentChatId ∧
    (selectChat (js "2") loadingState).currentChatId ≠ loadingState.currentChatId := by
  refine ⟨rfl, by decide, by decide, by decide, by decide⟩

/-- C5 amended: the loading flag disables only the submit button; the New
Chat button and the chat-list items are never disabled, and the
corresponding transitions (appending a fresh chat and making it current,
switching the current chat) take effect in every state, loading or not. -/
theorem loading_gates_only_submit (s : UIState) (now chatId : JSStr)
    (userId : Option JSStr) :
    submitButtonDisabled s = s.isLoading ∧
    newChatButtonDisabled s = false ∧
    chatListItemDisabled s = false ∧
    (createNewChat now userId s).1.currentChatId = now ∧
    (createNewChat now userId s).1.chats =
      s.chats ++ [{ id := now, messages := [], createdAt := now, updatedAt := now }] ∧
    (createNewChat now userId s).1.isLoading = s.isLoading ∧
    (selectChat chatId s).currentChatId = chatId := by
  refine ⟨rfl, rfl, rfl, ?_, ?_, ?_, ?_⟩
  · cases userId <;> rfl
  · cases userId <;> rfl
  · cases userId <;> rfl
  · unfold selectChat
    cases h : ({ s with currentChatId := chatId } : UIState).chats.find?
        (fun c => c.id == chatId) with
    | none => simp [h]
    | some c => simp [h]

/-! ## C2: what identity the storage key is derived from -/

/-- C2 counterexample: the persistence request body carries no user identity
at all (the facade builds identical bodies for different userId arguments),
and the identical save request issued under two different authenticated
sessions is stored under two different keys: the key is derived from the
session identity, not from any request-supplied identity. -/
theorem storage_key_request_identity_counterexample :
    saveChatRequestBody (js "alice") (js "c1") Json.null =
      saveChatRequestBody (js "bob") (js "c1") Json.null ∧
    (chatRoutePOST (some (js "alice"))
        (saveChatRequestBody (js "alice") (js "c1") Json.null) []).2.map Prod.fst =
      [js "alice/chats/c1/data.json"] ∧
    (chatRoutePOST (some (js "bob"))
        (saveChatRequestBody (js "alice") (js "c1") Json.null) []).2.map Prod.fst =
      [js "bob/chats/c1/data.json"] ∧
    js "alice/chats/c1/data.json" ≠ js "bob/chats/c1/data.json" := by
  refine ⟨rfl, by decide, by decide, by decide⟩

/-- C2 amended: the server-side handler derives the storage key from the
authenticated session identity and the request-supplied chatId only; the
facade accepts a userId argument but never embeds it in any request body, so
no client-supplied user identity can influence the key. -/
theorem storage_key_bound_to_session (u : JSStr) (req : ChatRequest) (store : Store)
    (h : req.action = js "save") :
    (chatRoutePOST (some u) req store).2 =
      s3Put store (chatKey u (req.chatId.getD (js "undefined"))) (stringifyBody req.chatData) ∧
    (∀ uid uid' c d, saveChatRequestBody uid c d = saveChatRequestBody uid' c d) ∧
    (∀ uid uid' c, getChatRequestBody uid c = getChatRequestBody uid' c) ∧
    (∀ uid uid', listChatsRequestBody uid = listChatsRequestBody uid') := by
  refine ⟨?_, fun _ _ _ _ => rfl, fun _ _ _ => rfl, fun _ _ => rfl⟩
  simp [chatRoutePOST, h]

theorem storage_key_bound_to_session_witness :
    (saveChatRequestBody (js "x") (js "c1") Json.null).action = js "save" ∧
    ((chatRoutePOST (some (js "alice"))
        (saveChatRequestBody (js "x") (js "c1") Json.null) []).2 =
      s3Put []
        (chatKey (js "alice")
          ((saveChatRequestBody (js "x") (js "c1") Json.null).chatId.getD (js "undefined")))
        (stringifyBody (saveChatRequestBody (js "x") (js "c1") Json.null).chatData) ∧
    (∀ uid uid' c d, saveChatRequestBody uid c d = saveChatRequestBody uid' c d) ∧
    (∀ uid uid' c, getChatRequestBody uid c = getChatRequestBody uid' c) ∧
    (∀ uid uid', listChatsRequestBody uid = listChatsRequestBody uid')) :=
  ⟨rfl, storage_key_bound_to_session (js "alice")
    (saveChatRequestBody (js "x") (js "c1") Json.null) [] rfl⟩

theorem jsonField_obj_head (k : JSStr) (j : Json) (rest : List (JSStr × Json)) :
    jsonField (Json.obj ((k, j) :: rest)) k = some j := by
  show List.lookup k ((k, j) :: rest) = some j
  rw [List.lookup_cons]
  simp

/-! ## C1: save then load round-trips -/

/-- C1: for every session, store, userId, chatId and record of the ChatData
shape, saving the record and then loading it returns exactly the saved
record (the JSON wire representation round-trips, and the representation
determines the record uniquely). -/
theorem save_then_load_roundtrip (store : Store) (u userId chatId : JSStr)
    (d : ChatData) :
    getChatFromS3 (some u) (saveChatToS3 (some u) store userId chatId d.toJson)
        userId chatId = d.toJson ∧
    (∀ d' : ChatData, ChatData.toJson d' = ChatData.toJson d → d' = d) := by
  constructor
  · have hsave : saveChatToS3 (some u) store userId chatId d.toJson =
        s3Put store (chatKey u chatId) (StoredBytes.wellFormed d.toJson) := by
      simp [saveChatToS3, saveChatRequestBody, chatRoutePOST, stringifyBody]
    have hget : s3Get
        (s3Put store (chatKey u chatId) (StoredBytes.wellFormed d.toJson))
        (chatKey u chatId) = some (StoredBytes.wellFormed d.toJson) :=
      s3Get_put_same store (chatKey u chatId) (StoredBytes.wellFormed d.toJson)
    have hne : (bytesToStr (StoredBytes.wellFormed d.toJson)).isEmpty = false :=
      isEmpty_false_of_ne_nil _ (jsonStringify_ne_nil d.toJson)
    have hgs : (js "get" = js "save") = False := eq_false (by decide)
    have hroute : (chatRoutePOST (some u)
        (getChatRequestBody userId chatId)
        (s3Put store (chatKey u chatId) (StoredBytes.wellFormed d.toJson))).1 =
        .ok (Json.obj [(js "data", d.toJson)]) := by
      simp [chatRoutePOST, getChatRequestBody, hgs, hget, hne, jsonParseBytes]
    rw [getChatFromS3, hsave, hroute]
    show (jsonField (Json.obj [(js "data", d.toJson)]) (js "data")).getD Json.null = d.toJson
    rw [jsonField_obj_head]
    rfl
  · intro d' h
    exact chatDataToJson_injective h

theorem save_then_load_roundtrip_witness :
    getChatFromS3 (some (js "alice"))
        (saveChatToS3 (some (js "alice")) [] (js "alice") (js "c1")
          (ChatData.toJson { id := js "c1",
                             messages := [{ role := .user, content := js "hi" }],
                             createdAt := js "t0", updatedAt := js "t0" }))
        (js "alice") (js "c1") =
      ChatData.toJson { id := js "c1",
                        messages := [{ role := .user, content := js "hi" }],
                        createdAt := js "t0", updatedAt := js "t0" } ∧
    (∀ d' : ChatData,
        ChatData.toJson d' =
          ChatData.toJson { id := js "c1",
                            messages := [{ role := .user, content := js "hi" }],
                            createdAt := js "t0", updatedAt := js "t0" } →
        d' = { id := js "c1",
               messages := [{ role := .user, content := js "hi" }],
               createdAt := js "t0", updatedAt := js "t0" }) :=
  save_then_load_roundtrip [] (js "alice") (js "alice") (js "c1")
    { id := js "c1", messages := [{ role := .user, content := js "hi" }],
      createdAt := js "t0", updatedAt := js "t0" }

/-! ## C6: absent records versus malformed stored bytes -/

/-- C6 counterexample: with malformed (non-JSON, non-empty) bytes stored at
the chat key, load returns null, exactly the same value load returns when no
record is stored at all: the parse failure is not distinguishable from an
absent record by the caller of load. -/
theorem malformed_load_equals_absent_counterexample :
    getChatFromS3 (some (js "u"))
        [(chatKey (js "u") (js "c"), StoredBytes.malformed (js "notjson"))]
        (js "u") (js "c") = Json.null ∧
    getChatFromS3 (some (js "u")) [] (js "u") (js "c") = Json.null := by
  exact ⟨rfl, rfl⟩

/-- C6 amended: when no record is stored, the route rejects with the generic
500 (the store NoSuchKey rejection reaches the catch-all) and the facade
converts it to the null no-record result; when the stored bytes are
malformed and non-empty, the JSON.parse failure likewise reaches the
catch-all, producing the same generic 500 and the same null at the facade:
the caller cannot distinguish malformed bytes from an absent record. -/
theorem load_absent_and_malformed (u chatId : JSStr) (store store' : Store)
    (raw : JSStr)
    (habs : s3Get store (chatKey u chatId) = none)
    (hraw : raw ≠ [])
    (hmal : s3Get store' (chatKey u chatId) = some (StoredBytes.malformed raw)) :
    (chatRoutePOST (some u) (getChatRequestBody u chatId) store).1 =
      .err 500 (js "Internal server error") ∧
    getChatFromS3 (some u) store u chatId = Json.null ∧
    (chatRoutePOST (some u) (getChatRequestBody u chatId) store').1 =
      .err 500 (js "Internal server error") ∧
    getChatFromS3 (some u) store' u chatId = Json.null := by
  have hgs : (js "get" = js "save") = False := eq_false (by decide)
  have hne : (bytesToStr (StoredBytes.malformed raw)).isEmpty = false :=
    isEmpty_false_of_ne_nil _ hraw
  have h1 : (chatRoutePOST (some u) (getChatRequestBody u chatId) store).1 =
      .err 500 (js "Internal server error") := by
    simp [chatRoutePOST, getChatRequestBody, hgs, habs]
  have h2 : (chatRoutePOST (some u) (getChatRequestBody u chatId) store').1 =
      .err 500 (js "Internal server error") := by
    simp [chatRoutePOST, getChatRequestBody, hgs, hmal, hne, jsonParseBytes]
  refine ⟨h1, ?_, h2, ?_⟩
  · rw [getChatFromS3, h1]
  · rw [getChatFromS3, h2]

theorem load_absent_and_malformed_witness :
    s3Get [] (chatKey (js "u") (js "c")) = none ∧
    js "notjson" ≠ [] ∧
    s3Get [(chatKey (js "u") (js "c"), StoredBytes.malformed (js "notjson"))]
        (chatKey (js "u") (js "c")) = some (StoredBytes.malformed (js "notjson")) ∧
    ((chatRoutePOST (some (js "u")) (getChatRequestBody (js "u") (js "c")) []).1 =
        .err 500 (js "Internal server error") ∧
      getChatFromS3 (some (js "u")) [] (js "u") (js "c") = Json.null ∧
      (chatRoutePOST (some (js "u")) (getChatRequestBody (js "u") (js "c"))
          [(chatKey (js "u") (js "c"), StoredBytes.malformed (js "notjson"))]).1 =
        .err 500 (js "Internal server error") ∧
      getChatFromS3 (some (js "u"))
          [(chatKey (js "u") (js "c"), StoredBytes.malformed (js "notjson"))]
          (js "u") (js "c") = Json.null) :=
  ⟨rfl, by decide, rfl,
    load_absent_and_malformed (js "u") (js "c") []
      [(chatKey (js "u") (js "c"), StoredBytes.malformed (js "notjson"))]
      (js "notjson") rfl (by decide) rfl⟩

/-! ## String-splitting helper lemmas (for C8 and C9) -/

theorem splitOnChar_ne_nil (d : Char) (s : JSStr) : splitOnChar d s ≠ [] := by
  cases s with
  | nil => simp [splitOnChar]
  | cons c rest =>
    simp only [splitOnChar]
    cases h : splitOnChar d rest with
    | nil => simp [h]
    | cons x t => simp only [h]; split <;> simp

theorem splitOnChar_append_cons (d : Char) (a b : JSStr) :
    splitOnChar d (a ++ d :: b) = splitOnChar d a ++ splitOnChar d b := by
  induction a with
  | nil =>
    simp only [List.nil_append]
    cases h : splitOnChar d b with
    | nil => exact absurd h (splitOnChar_ne_nil d b)
    | cons x t => simp [splitOnChar, h]
  | cons c a ih =>
    cases h : splitOnChar d a with
    | nil => exact absurd h (splitOnChar_ne_nil d a)
    | cons x t =>
      by_cases hc : c = d <;>
        simp [splitOnChar, ih, h, hc]

theorem splitOnChar_eq_single (d : Char) (a : JSStr) (h : d ∉ a) :
    splitOnChar d a = [a] := by
  induction a with
  | nil => rfl
  | cons c a ih =>
    have hc : ¬(c = d) := fun hcd => h (hcd ▸ List.mem_cons_self c a)
    have ha : d ∉ a := fun hda => h (List.mem_cons_of_mem c hda)
    simp [splitOnChar, ih ha, hc]

theorem jsStartsWith_append (p t : JSStr) : jsStartsWith p (p ++ t) = true := by
  induction p with
  | nil => rfl
  | cons a p ih => simp [jsStartsWith, ih]

theorem takeWhile_append_cons {p : Char → Bool} (a : JSStr) (d : Char) (b : JSStr)
    (ha : ∀ x ∈ a, p x = true) (hd : p d = false) :
    (a ++ d :: b).takeWhile p = a := by
  induction a with
  | nil => simp [List.takeWhile_cons, hd]
  | cons c a ih =>
    have hc : p c = true := ha c (List.mem_cons_self c a)
    simp [List.takeWhile_cons, hc]
    exact ih (fun x hx => ha x (List.mem_cons_of_mem c hx))

theorem chatKey_right_injective (u : JSStr) (a b : JSStr)
    (h : chatKey u a = chatKey u b) : a = b := by
  unfold chatKey at h
  simp only [List.append_assoc] at h
  have h1 := List.append_cancel_left h
  have h2 := List.append_cancel_left h1
  exact List.append_cancel_right h2

theorem chatKey_as_pre (u c : JSStr) :
    chatKey u c = (u ++ js "/chats/") ++ (c ++ js "/data.json") := by
  simp [chatKey, List.append_assoc]

/-! ## Store and listing lemmas (for C8) -/

theorem saveChatToS3_eq_put (u : JSStr) (st : Store) (userId c : JSStr) (d : Json) :
    saveChatToS3 (some u) st userId c d =
      s3Put st (chatKey u c) (StoredBytes.wellFormed d) := by
  simp [saveChatToS3, saveChatRequestBody, chatRoutePOST, stringifyBody]

theorem foldl_saves_eq (u : JSStr) (saves : List (JSStr × Json)) :
    ∀ st : Store,
      (∀ cd ∈ saves, ∀ kv ∈ st, kv.1 ≠ chatKey u cd.1) →
      (saves.map Prod.fst).Nodup →
      saves.foldl (fun acc cd => saveChatToS3 (some u) acc u cd.1 cd.2) st =
        st ++ saves.map (fun cd => (chatKey u cd.1, StoredBytes.wellFormed cd.2)) := by
  induction saves with
  | nil => intro st _ _; simp
  | cons cd rest ih =>
    intro st hdisj hnodup
    simp only [List.foldl_cons]
    have hstep : saveChatToS3 (some u) st u cd.1 cd.2 =
        st ++ [(chatKey u cd.1, StoredBytes.wellFormed cd.2)] := by
      rw [saveChatToS3_eq_put]
      unfold s3Put
      congr 1
      rw [List.filter_eq_self]
      intro kv hkv
      have hne := hdisj cd (List.mem_cons_self cd rest) kv hkv
      simpa using hne
    rw [hstep, ih (st ++ [(chatKey u cd.1, StoredBytes.wellFormed cd.2)]) ?_ ?_]
    · simp
    · intro cd' hcd' kv hkv
      rcases List.mem_append.mp hkv with h1 | h2
      · exact hdisj cd' (List.mem_cons_of_mem cd hcd') kv h1
      · have hkveq : kv = (chatKey u cd.1, StoredBytes.wellFormed cd.2) := by
          simpa using h2
        rw [hkveq]
        intro heq
        have hid : cd.1 = cd'.1 := chatKey_right_injective u cd.1 cd'.1 heq
        have hmem : cd.1 ∈ rest.map Prod.fst := by
          rw [hid]
          exact List.mem_map_of_mem Prod.fst hcd'
        have hnotmem := (List.nodup_cons.mp hnodup).1
        exact hnotmem hmem
    · exact (List.nodup_cons.mp hnodup).2


theorem filterMap_eq_map_of_forall {α β : Type} (l : List α) (f : α → Option β)
    (g : α → β) (h : ∀ x ∈ l, f x = some (g x)) : l.filterMap f = l.map g := by
  induction l with
  | nil => rfl
  | cons a t ih =>
    rw [List.filterMap_cons, h a (List.mem_cons_self a t), List.map_cons,
      ih (fun x hx => h x (List.mem_cons_of_mem a hx))]

theorem commonPrefixes_mapped (u : JSStr) (ids : List (JSStr × Json))
    (hu : '/' ∉ u)
    (hnodup : (ids.map Prod.fst).Nodup)
    (hids : ∀ cd ∈ ids, cd.1 ≠ [] ∧ '/' ∉ cd.1) :
    s3CommonPrefixes (ids.map (fun cd => (chatKey u cd.1, StoredBytes.wellFormed cd.2)))
        (u ++ js "/chats/") '/' =
      ids.map (fun cd => (u ++ js "/chats/") ++ cd.1 ++ ['/']) := by
  unfold s3CommonPrefixes
  have hkeys : (ids.map (fun cd => (chatKey u cd.1, StoredBytes.wellFormed cd.2))).map
        Prod.fst = ids.map (fun cd => chatKey u cd.1) := by
    rw [List.map_map]; rfl
  rw [hkeys]
  have hfilter : (ids.map (fun cd => chatKey u cd.1)).filter
        (fun k => jsStartsWith (u ++ js "/chats/") k) =
      ids.map (fun cd => chatKey u cd.1) := by
    rw [List.filter_eq_self]
    intro k hk
    rcases List.mem_map.mp hk with ⟨cd, _, rfl⟩
    rw [chatKey_as_pre]
    exact jsStartsWith_append _ _
  rw [hfilter, List.filterMap_map]
  have hpt : ∀ cd ∈ ids, ((fun k =>
        let rest := k.drop (u ++ js "/chats/").length
        if '/' ∈ rest then
          some ((u ++ js "/chats/") ++ rest.takeWhile (fun c => !(c == '/')) ++ ['/'])
        else none) ∘ (fun cd => chatKey u cd.1)) cd =
      some ((u ++ js "/chats/") ++ cd.1 ++ ['/']) := by
    intro cd hcd
    obtain ⟨hne, hnotin⟩ := hids cd hcd
    have hdrop : (chatKey u cd.1).drop (u ++ js "/chats/").length =
        cd.1 ++ js "/data.json" := by
      rw [chatKey_as_pre]
      exact List.drop_left _ _
    have hdj : js "/data.json" = '/' :: js "data.json" := by decide
    have hmem : '/' ∈ cd.1 ++ js "/data.json" := by
      rw [hdj]
      exact List.mem_append.mpr (Or.inr (List.mem_cons_self _ _))
    have htake : (cd.1 ++ js "/data.json").takeWhile (fun c => !(c == '/')) = cd.1 := by
      rw [hdj]
      refine takeWhile_append_cons cd.1 '/' (js "data.json") ?_ (by decide)
      intro x hx
      have hxne : ¬(x = '/') := fun hxd => hnotin (hxd ▸ hx)
      simpa using hxne
    show (if '/' ∈ (chatKey u cd.1).drop (u ++ js "/chats/").length then
        some ((u ++ js "/chats/") ++
          ((chatKey u cd.1).drop (u ++ js "/chats/").length).takeWhile
            (fun c => !(c == '/')) ++ ['/'])
      else none) = some ((u ++ js "/chats/") ++ cd.1 ++ ['/'])
    rw [hdrop, htake, if_pos hmem]
  rw [filterMap_eq_map_of_forall ids _ _ hpt]
  have hmapnodup : (ids.map (fun cd => (u ++ js "/chats/") ++ cd.1 ++ ['/'])).Nodup := by
    have hrw : ids.map (fun cd => (u ++ js "/chats/") ++ cd.1 ++ ['/']) =
        (ids.map Prod.fst).map (fun c => (u ++ js "/chats/") ++ c ++ ['/']) := by
      rw [List.map_map]; rfl
    rw [hrw]
    refine List.Nodup.map ?_ hnodup
    intro a b hab
    simp only [List.append_assoc] at hab
    exact List.append_cancel_right (List.append_cancel_left (List.append_cancel_left hab))
  rw [List.dedup_eq_self.mpr hmapnodup]

theorem routeListIds_mapped (u : JSStr) (ids : List (JSStr × Json))
    (hu : '/' ∉ u)
    (hnodup : (ids.map Prod.fst).Nodup)
    (hids : ∀ cd ∈ ids, cd.1 ≠ [] ∧ '/' ∉ cd.1) :
    routeListIds u (ids.map (fun cd => (chatKey u cd.1, StoredBytes.wellFormed cd.2))) =
      ids.map Prod.fst := by
  unfold routeListIds
  rw [commonPrefixes_mapped u ids hu hnodup hids, List.map_map]
  have hsplit : ∀ cd ∈ ids, ((fun p => (splitOnChar '/' p).getD 2 []) ∘
      (fun cd => (u ++ js "/chats/") ++ cd.1 ++ ['/'])) cd = cd.1 := by
    intro cd hcd
    obtain ⟨hne, hnotin⟩ := hids cd hcd
    show (splitOnChar '/' ((u ++ js "/chats/") ++ cd.1 ++ ['/'])).getD 2 [] = cd.1
    have hform : (u ++ js "/chats/") ++ cd.1 ++ ['/'] =
        u ++ '/' :: (js "chats" ++ '/' :: (cd.1 ++ '/' :: [])) := by
      have h1 : js "/chats/" = '/' :: (js "chats" ++ ['/']) := by decide
      rw [h1]
      simp [List.append_assoc]
    rw [hform, splitOnChar_append_cons, splitOnChar_eq_single '/' u hu,
        splitOnChar_append_cons, splitOnChar_eq_single '/' (js "chats") (by decide),
        splitOnChar_append_cons, splitOnChar_eq_single '/' cd.1 hnotin]
    rfl
  rw [List.map_congr_left hsplit]
  have hfe : (ids.map (fun cd : JSStr × Json => cd.1)).filter (fun c => !c.isEmpty) =
      ids.map (fun cd : JSStr × Json => cd.1) := by
    rw [List.filter_eq_self]
    intro a ha
    rcases List.mem_map.mp ha with ⟨cd, hcd, rfl⟩
    simp [isEmpty_false_of_ne_nil _ (hids cd hcd).1]
  rw [hfe]

theorem chatRoutePOST_list (u w : JSStr) (store : Store) :
    chatRoutePOST (some u) (listChatsRequestBody w) store =
      (.ok (Json.obj [(js "chatIds", Json.arr ((routeListIds u store).map Json.str))]),
        store) := by
  have h1 : (js "list" = js "save") = False := eq_false (by decide)
  have h2 : (js "list" = js "get") = False := eq_false (by decide)
  simp [chatRoutePOST, listChatsRequestBody, h1, h2]

theorem filterMap_str (l : List JSStr) : (l.map Json.str).filterMap jsonAsStr = l := by
  induction l with
  | nil => rfl
  | cons a t ih => simp [jsonAsStr, List.filterMap_cons, ih]

theorem listUserChats_eq (u userId : JSStr) (store : Store) :
    listUserChats (some u) store userId = routeListIds u store := by
  unfold listUserChats
  rw [chatRoutePOST_list u userId store]
  show (match jsonField (Json.obj [(js "chatIds",
      Json.arr ((routeListIds u store).map Json.str))]) (js "chatIds") with
    | some (Json.arr es) => es.filterMap jsonAsStr
    | _ => []) = routeListIds u store
  rw [jsonField_obj_head]
  exact filterMap_str _

/-! ## C8: listIds returns exactly the saved chat ids -/

/-- C8: starting from an empty store and saving any number of distinct
(non-empty, slash-free) chat ids for a user through the facade, listUserChats
returns exactly those ids (here even in save order, which subsumes the
set-with-unspecified-order reading); and for a user with zero saved chats,
listUserChats returns the empty list while the route responds 200 with an
empty chatIds array, not an error. -/
theorem listIds_after_saves (u : JSStr) (saves : List (JSStr × Json))
    (hu : '/' ∉ u)
    (hnodup : (saves.map Prod.fst).Nodup)
    (hids : ∀ cd ∈ saves, cd.1 ≠ [] ∧ '/' ∉ cd.1) :
    listUserChats (some u)
        (saves.foldl (fun acc cd => saveChatToS3 (some u) acc u cd.1 cd.2) []) u =
      saves.map Prod.fst ∧
    listUserChats (some u) [] u = [] ∧
    (chatRoutePOST (some u) (listChatsRequestBody u) []).1 =
      .ok (Json.obj [(js "chatIds", Json.arr [])]) := by
  refine ⟨?_, ?_, ?_⟩
  · rw [foldl_saves_eq u saves []
      (fun cd _ kv hkv => absurd hkv (List.not_mem_nil kv)) hnodup]
    rw [List.nil_append, listUserChats_eq, routeListIds_mapped u saves hu hnodup hids]
  · rw [listUserChats_eq]
    rfl
  · rfl

theorem listIds_after_saves_witness :
    ('/' ∉ js "u1") ∧
    (([(js "11", Json.null), (js "22", Json.bool true)].map Prod.fst).Nodup) ∧
    (∀ cd ∈ [(js "11", Json.null), (js "22", Json.bool true)], cd.1 ≠ [] ∧ '/' ∉ cd.1) ∧
    (listUserChats (some (js "u1"))
        ([(js "11", Json.null), (js "22", Json.bool true)].foldl
          (fun acc cd => saveChatToS3 (some (js "u1")) acc (js "u1") cd.1 cd.2) [])
        (js "u1") =
      [(js "11", Json.null), (js "22", Json.bool true)].map Prod.fst ∧
      listUserChats (some (js "u1")) [] (js "u1") = [] ∧
      (chatRoutePOST (some (js "u1")) (listChatsRequestBody (js "u1")) []).1 =
        .ok (Json.obj [(js "chatIds", Json.arr [])])) :=
  ⟨by decide, by decide, by decide,
    listIds_after_saves (js "u1") [(js "11", Json.null), (js "22", Json.bool true)]
      (by decide) (by decide) (by decide)⟩

/-! ## Prompt composition lemmas (for C9) -/

theorem splitOnChar_cons_self (d : Char) (b : JSStr) :
    splitOnChar d (d :: b) = [] :: splitOnChar d b := by
  have h := splitOnChar_append_cons d [] b
  simpa using h

theorem foldl_append_renderMsg (h : List Message) : ∀ acc : JSStr,
    h.foldl (fun acc m => acc ++ renderMsg m) acc = acc ++ (h.map renderMsg).flatten := by
  induction h with
  | nil => intro acc; simp
  | cons m t ih => intro acc; simp [ih, List.append_assoc]

/-- The composition canonical form: the sequential appends of the source,
re-associated into one block per constituent. -/
theorem enhancedPrompt_eq (t g a : Option JSStr) (h : List Message) (p : JSStr) :
    enhancedPrompt t g a h p =
      (SYSTEM_PROMPT ++ js "\n\nCreate a tweet with the following specifications:\n")
      ++ ((if jsTruthy t then js "Tone: " ++ t.getD [] ++ js "\n" else [])
      ++ ((if jsTruthy g then js "Goal: " ++ g.getD [] ++ js "\n" else [])
      ++ ((if jsTruthy a then js "Target Audience: " ++ a.getD [] ++ js "\n" else [])
      ++ ((if h.length > 0 then
            js "\nPrevious conversation context:\n" ++ (h.map renderMsg).flatten
          else [])
      ++ (js "\nUser\x27s request: " ++ p
          ++ js "\n\nGenerate a tweet that matches these specifications."))))) := by
  unfold enhancedPrompt
  by_cases ht : jsTruthy t <;> by_cases hg : jsTruthy g <;> by_cases ha : jsTruthy a <;>
    by_cases hh : h.length > 0 <;>
      simp [ht, hg, ha, hh, foldl_append_renderMsg, List.append_assoc]

theorem lines_line_append (x rest : JSStr) (hx : '\n' ∉ x) :
    splitOnChar '\n' ((x ++ js "\n") ++ rest) = x :: splitOnChar '\n' rest := by
  have h0 : js "\n" = ['\n'] := rfl
  rw [h0, List.append_assoc]
  have h2 : ['\n'] ++ rest = '\n' :: rest := rfl
  rw [h2, splitOnChar_append_cons, splitOnChar_eq_single '\n' x hx]
  rfl

set_option maxRecDepth 10000 in
theorem lines_base_append (rest : JSStr) :
    splitOnChar '\n'
      ((SYSTEM_PROMPT ++ js "\n\nCreate a tweet with the following specifications:\n")
        ++ rest) = baseLines ++ splitOnChar '\n' rest := by
  have hB : SYSTEM_PROMPT ++ js "\n\nCreate a tweet with the following specifications:\n" =
      (SYSTEM_PROMPT ++ js "\n\nCreate a tweet with the following specifications:")
        ++ ['\n'] := by decide
  rw [hB, List.append_assoc]
  have h2 : ['\n'] ++ rest = '\n' :: rest := rfl
  rw [h2, splitOnChar_append_cons]
  rfl

theorem lines_flatten_renderMsg (h : List Message) (rest : JSStr)
    (hh : ∀ m ∈ h, '\n' ∉ m.content) :
    splitOnChar '\n' ((h.map renderMsg).flatten ++ rest) =
      h.map msgLine ++ splitOnChar '\n' rest := by
  induction h with
  | nil => simp
  | cons m tl ih =>
    have hmem : '\n' ∉ msgLine m := by
      unfold msgLine
      intro hc
      rcases List.mem_append.mp hc with h1 | h2
      · rcases List.mem_append.mp h1 with h3 | h4
        · cases hr : m.role <;> rw [hr] at h3 <;> revert h3 <;> decide
        · revert h4; decide
      · exact hh m (List.mem_cons_self m tl) h2
    have hr : renderMsg m ++ ((tl.map renderMsg).flatten ++ rest) =
        (msgLine m ++ js "\n") ++ ((tl.map renderMsg).flatten ++ rest) := by
      unfold renderMsg msgLine
      simp [List.append_assoc]
    simp only [List.map_cons, List.flatten_cons, List.append_assoc]
    rw [← List.append_assoc (msgLine m ++ js "\n")] at hr
    rw [show renderMsg m ++ ((tl.map renderMsg).flatten ++ rest) =
        ((msgLine m ++ js "\n") ++ (tl.map renderMsg).flatten) ++ rest from hr]
    rw [List.append_assoc, lines_line_append _ _ hmem,
      ih (fun m' hm' => hh m' (List.mem_cons_of_mem m hm'))]
    rfl

theorem lines_hist_append (h : List Message) (rest : JSStr)
    (hh : ∀ m ∈ h, '\n' ∉ m.content) :
    splitOnChar '\n'
        ((js "\nPrevious conversation context:\n" ++ (h.map renderMsg).flatten) ++ rest) =
      ([] :: js "Previous conversation context:" :: h.map msgLine)
        ++ splitOnChar '\n' rest := by
  have h1 : js "\nPrevious conversation context:\n" ++ (h.map renderMsg).flatten ++ rest =
      '\n' :: ((js "Previous conversation context:" ++ js "\n")
        ++ ((h.map renderMsg).flatten ++ rest)) := by
    have h0 : js "\nPrevious conversation context:\n" =
        '\n' :: (js "Previous conversation context:" ++ js "\n") := by decide
    rw [h0]
    simp [List.append_assoc]
  rw [h1, splitOnChar_cons_self, lines_line_append _ _ (by decide),
    lines_flatten_renderMsg h rest hh]
  rfl

theorem lines_footer (p : JSStr) (hp : '\n' ∉ p) :
    splitOnChar '\n' (js "\nUser\x27s request: " ++ p
        ++ js "\n\nGenerate a tweet that matches these specifications.") =
      [[], js "User\x27s request: " ++ p, [],
       js "Generate a tweet that matches these specifications."] := by
  have hur : '\n' ∉ js "User\x27s request: " ++ p := by
    intro hc
    rcases List.mem_append.mp hc with h1 | h2
    · revert h1; decide
    · exact hp h2
  have h1 : js "\nUser\x27s request: " ++ p
        ++ js "\n\nGenerate a tweet that matches these specifications." =
      '\n' :: (((js "User\x27s request: " ++ p) ++ js "\n")
        ++ ('\n' :: js "Generate a tweet that matches these specifications.")) := by
    have h0 : js "\nUser\x27s request: " = '\n' :: js "User\x27s request: " := rfl
    have h2 : js "\n\nGenerate a tweet that matches these specifications." =
        '\n' :: '\n' :: js "Generate a tweet that matches these specifications." := rfl
    rw [h0, h2]
    simp [List.append_assoc, show js "\n" = ['\n'] from rfl]
  rw [h1, splitOnChar_cons_self, lines_line_append _ _ hur, splitOnChar_cons_self,
    splitOnChar_eq_single '\n' _ (by decide)]

/-- The full line decomposition of the composed prompt: the base lines, one
line per present constraint, the conversation-context block when history is
non-empty, and the request footer. -/
theorem lines_enhancedPrompt (t g a : Option JSStr) (h : List Message) (p : JSStr)
    (hp : '\n' ∉ p)
    (hh : ∀ m ∈ h, '\n' ∉ m.content)
    (ht : ∀ s, t = some s → '\n' ∉ s)
    (hg : ∀ s, g = some s → '\n' ∉ s)
    (ha : ∀ s, a = some s → '\n' ∉ s) :
    splitOnChar '\n' (enhancedPrompt t g a h p) =
      baseLines
      ++ ((if jsTruthy t then [js "Tone: " ++ t.getD []] else [])
      ++ ((if jsTruthy g then [js "Goal: " ++ g.getD []] else [])
      ++ ((if jsTruthy a then [js "Target Audience: " ++ a.getD []] else [])
      ++ ((if h.length > 0 then
            [] :: js "Previous conversation context:" :: h.map msgLine
          else [])
      ++ [[], js "User\x27s request: " ++ p, [],
          js "Generate a tweet that matches these specifications."])))) := by
  have hvt : jsTruthy t = true → '\n' ∉ t.getD [] := by
    intro htr
    cases t with
    | none => simp [jsTruthy] at htr
    | some s => exact ht s rfl
  have hvg : jsTruthy g = true → '\n' ∉ g.getD [] := by
    intro htr
    cases g with
    | none => simp [jsTruthy] at htr
    | some s => exact hg s rfl
  have hva : jsTruthy a = true → '\n' ∉ a.getD [] := by
    intro htr
    cases a with
    | none => simp [jsTruthy] at htr
    | some s => exact ha s rfl
  rw [enhancedPrompt_eq, lines_base_append]
  refine congrArg (baseLines ++ ·) ?_
  by_cases Ht : jsTruthy t
  case pos =>
    have hnt : '\n' ∉ js "Tone: " ++ t.getD [] := by
      intro hc
      rcases List.mem_append.mp hc with h1 | h2
      · revert h1; decide
      · exact hvt Ht h2
    rw [if_pos Ht, if_pos Ht]
    have hre : js "Tone: " ++ t.getD [] ++ js "\n" = (js "Tone: " ++ t.getD []) ++ js "\n" := by
      simp [List.append_assoc]
    rw [hre, lines_line_append _ _ hnt]
    refine congrArg (List.cons _) ?_
    by_cases Hg : jsTruthy g
    case pos =>
      have hng : '\n' ∉ js "Goal: " ++ g.getD [] := by
        intro hc
        rcases List.mem_append.mp hc with h1 | h2
        · revert h1; decide
        · exact hvg Hg h2
      rw [if_pos Hg, if_pos Hg]
      have hre2 : js "Goal: " ++ g.getD [] ++ js "\n" =
          (js "Goal: " ++ g.getD []) ++ js "\n" := by
        simp [List.append_assoc]
      rw [hre2, lines_line_append _ _ hng]
      refine congrArg (List.cons _) ?_
      by_cases Ha : jsTruthy a
      case pos =>
        have hna : '\n' ∉ js "Target Audience: " ++ a.getD [] := by
          intro hc
          rcases List.mem_append.mp hc with h1 | h2
          · revert h1; decide
          · exact hva Ha h2
        rw [if_pos Ha, if_pos Ha]
        have hre3 : js "Target Audience: " ++ a.getD [] ++ js "\n" =
            (js "Target Audience: " ++ a.getD []) ++ js "\n" := by
          simp [List.append_assoc]
        rw [hre3, lines_line_append _ _ hna]
        refine congrArg (List.cons _) ?_
        by_cases Hh : h.length > 0
        · rw [if_pos Hh, if_pos Hh, lines_hist_append h _ hh]
          refine congrArg (([] :: js "Previous conversation context:" :: h.map msgLine) ++ ·) ?_
          exact lines_footer p hp
        · rw [if_neg Hh, if_neg Hh]
          simp only [List.nil_append]
          exact lines_footer p hp
      case neg =>
        rw [if_neg Ha, if_neg Ha, List.nil_append, List.nil_append]
        by_cases Hh : h.length > 0
        · rw [if_pos Hh, if_pos Hh, lines_hist_append h _ hh]
          refine congrArg (([] :: js "Previous conversation context:" :: h.map msgLine) ++ ·) ?_
          exact lines_footer p hp
        · rw [if_neg Hh, if_neg Hh]
          simp only [List.nil_append]
          exact lines_footer p hp
    case neg =>
      rw [if_neg Hg, if_neg Hg, List.nil_append, List.nil_append]
      by_cases Ha : jsTruthy a
      case pos =>
        have hna : '\n' ∉ js "Target Audience: " ++ a.getD [] := by
          intro hc
          rcases List.mem_append.mp hc with h1 | h2
          · revert h1; decide
          · exact hva Ha h2
        rw [if_pos Ha, if_pos Ha]
        have hre3 : js "Target Audience: " ++ a.getD [] ++ js "\n" =
            (js "Target Audience: " ++ a.getD []) ++ js "\n" := by
          simp [List.append_assoc]
        rw [hre3, lines_line_append _ _ hna]
        refine congrArg (List.cons _) ?_
        by_cases Hh : h.length > 0
        · rw [if_pos Hh, if_pos Hh, lines_hist_append h _ hh]
          refine congrArg (([] :: js "Previous conversation context:" :: h.map msgLine) ++ ·) ?_
          exact lines_footer p hp
        · rw [if_neg Hh, if_neg Hh]
          simp only [List.nil_append]
          exact lines_footer p hp
      case neg =>
        rw [if_neg Ha, if_neg Ha, List.nil_append, List.nil_append]
        by_cases Hh : h.length > 0
        · rw [if_pos Hh, if_pos Hh, lines_hist_append h _ hh]
          refine congrArg (([] :: js "Previous conversation context:" :: h.map msgLine) ++ ·) ?_
          exact lines_footer p hp
        · rw [if_neg Hh, if_neg Hh]
          simp only [List.nil_append]
          exact lines_footer p hp
  case neg =>
    rw [if_neg Ht, if_neg Ht, List.nil_append, List.nil_append]
    by_cases Hg : jsTruthy g
    case pos =>
      have hng : '\n' ∉ js "Goal: " ++ g.getD [] := by
        intro hc
        rcases List.mem_append.mp hc with h1 | h2
        · revert h1; decide
        · exact hvg Hg h2
      rw [if_pos Hg, if_pos Hg]
      have hre2 : js "Goal: " ++ g.getD [] ++ js "\n" =
          (js "Goal: " ++ g.getD []) ++ js "\n" := by
        simp [List.append_assoc]
      rw [hre2, lines_line_append _ _ hng]
      refine congrArg (List.cons _) ?_
      by_cases Ha : jsTruthy a
      case pos =>
        have hna : '\n' ∉ js "Target Audience: " ++ a.getD [] := by
          intro hc
          rcases List.mem_append.mp hc with h1 | h2
          · revert h1; decide
          · exact hva Ha h2
        rw [if_pos Ha, if_pos Ha]
        have hre3 : js "Target Audience: " ++ a.getD [] ++ js "\n" =
            (js "Target Audience: " ++ a.getD []) ++ js "\n" := by
          simp [List.append_assoc]
        rw [hre3, lines_line_append _ _ hna]
        refine congrArg (List.cons _) ?_
        by_cases Hh : h.length > 0
        · rw [if_pos Hh, if_pos Hh, lines_hist_append h _ hh]
          refine congrArg (([] :: js "Previous conversation context:" :: h.map msgLine) ++ ·) ?_
          exact lines_footer p hp
        · rw [if_neg Hh, if_neg Hh]
          simp only [List.nil_append]
          exact lines_footer p hp
      case neg =>
        rw [if_neg Ha, if_neg Ha, List.nil_append, List.nil_append]
        by_cases Hh : h.length > 0
        · rw [if_pos Hh, if_pos Hh, lines_hist_append h _ hh]
          refine congrArg (([] :: js "Previous conversation context:" :: h.map msgLine) ++ ·) ?_
          exact lines_footer p hp
        · rw [if_neg Hh, if_neg Hh]
          simp only [List.nil_append]
          exact lines_footer p hp
    case neg =>
      rw [if_neg Hg, if_neg Hg, List.nil_append, List.nil_append]
      by_cases Ha : jsTruthy a
      case pos =>
        have hna : '\n' ∉ js "Target Audience: " ++ a.getD [] := by
          intro hc
          rcases List.mem_append.mp hc with h1 | h2
          · revert h1; decide
          · exact hva Ha h2
        rw [if_pos Ha, if_pos Ha]
        have hre3 : js "Target Audience: " ++ a.getD [] ++ js "\n" =
            (js "Target Audience: " ++ a.getD []) ++ js "\n" := by
          simp [List.append_assoc]
        rw [hre3, lines_line_append _ _ hna]
        refine congrArg (List.cons _) ?_
        by_cases Hh : h.length > 0
        · rw [if_pos Hh, if_pos Hh, lines_hist_append h _ hh]
          refine congrArg (([] :: js "Previous conversation context:" :: h.map msgLine) ++ ·) ?_
          exact lines_footer p hp
        · rw [if_neg Hh, if_neg Hh]
          simp only [List.nil_append]
          exact lines_footer p hp
      case neg =>
        rw [if_neg Ha, if_neg Ha, List.nil_append, List.nil_append]
        by_cases Hh : h.length > 0
        · rw [if_pos Hh, if_pos Hh, lines_hist_append h _ hh]
          refine congrArg (([] :: js "Previous conversation context:" :: h.map msgLine) ++ ·) ?_
          exact lines_footer p hp
        · rw [if_neg Hh, if_neg Hh]
          simp only [List.nil_append]
          exact lines_footer p hp

theorem jsStartsWith_head_ne (a : Char) (pr : JSStr) (b : Char) (s : JSStr)
    (hne : (a == b) = false) : jsStartsWith (a :: pr) (b :: s) = false := by
  simp [jsStartsWith, hne]

theorem jsStartsWith_append_left (pr : JSStr) : ∀ (x : JSStr) (v : JSStr),
    pr.length ≤ x.length → jsStartsWith pr (x ++ v) = jsStartsWith pr x := by
  induction pr with
  | nil => intro x v _; rfl
  | cons a pr ih =>
    intro x v hlen
    cases x with
    | nil => simp at hlen
    | cons b x =>
      simp only [List.cons_append, jsStartsWith]
      show (a == b && jsStartsWith pr (x ++ v)) = (a == b && jsStartsWith pr x)
      rw [ih x v (by simpa using hlen)]

set_option maxRecDepth 100000 in
theorem notpre_base : ∀ l ∈ baseLines,
    jsStartsWith (js "Tone: ") l = false ∧
    jsStartsWith (js "Goal: ") l = false ∧
    jsStartsWith (js "Target Audience: ") l = false := by decide

theorem notpre_empty :
    jsStartsWith (js "Tone: ") [] = false ∧
    jsStartsWith (js "Goal: ") [] = false ∧
    jsStartsWith (js "Target Audience: ") [] = false := by decide

theorem notpre_pcc :
    jsStartsWith (js "Tone: ") (js "Previous conversation context:") = false ∧
    jsStartsWith (js "Goal: ") (js "Previous conversation context:") = false ∧
    jsStartsWith (js "Target Audience: ") (js "Previous conversation context:") = false := by
  decide

theorem notpre_gline :
    jsStartsWith (js "Tone: ")
      (js "Generate a tweet that matches these specifications.") = false ∧
    jsStartsWith (js "Goal: ")
      (js "Generate a tweet that matches these specifications.") = false ∧
    jsStartsWith (js "Target Audience: ")
      (js "Generate a tweet that matches these specifications.") = false := by decide

theorem msgLine_user (m : Message) (h : m.role = Role.user) :
    msgLine m = 'U' :: (js "ser: " ++ m.content) := by
  unfold msgLine roleLabel
  rw [h]
  have h2 : js "User" ++ js ": " = 'U' :: js "ser: " := by decide
  show (js "User" ++ js ": ") ++ m.content = 'U' :: (js "ser: " ++ m.content)
  rw [h2]
  rfl

theorem msgLine_assistant (m : Message) (h : m.role = Role.assistant) :
    msgLine m = 'A' :: (js "ssistant: " ++ m.content) := by
  unfold msgLine roleLabel
  rw [h]
  have h2 : js "Assistant" ++ js ": " = 'A' :: js "ssistant: " := by decide
  show (js "Assistant" ++ js ": ") ++ m.content = 'A' :: (js "ssistant: " ++ m.content)
  rw [h2]
  rfl

theorem notpre_msgLine (m : Message) :
    jsStartsWith (js "Tone: ") (msgLine m) = false ∧
    jsStartsWith (js "Goal: ") (msgLine m) = false ∧
    jsStartsWith (js "Target Audience: ") (msgLine m) = false := by
  cases hr : m.role with
  | user =>
    rw [msgLine_user m hr]
    exact ⟨jsStartsWith_head_ne _ _ _ _ (by decide),
      jsStartsWith_head_ne _ _ _ _ (by decide),
      jsStartsWith_head_ne _ _ _ _ (by decide)⟩
  | assistant =>
    rw [msgLine_assistant m hr]
    exact ⟨jsStartsWith_head_ne _ _ _ _ (by decide),
      jsStartsWith_head_ne _ _ _ _ (by decide),
      jsStartsWith_head_ne _ _ _ _ (by decide)⟩

theorem notpre_ur (p : JSStr) :
    jsStartsWith (js "Tone: ") (js "User\x27s request: " ++ p) = false ∧
    jsStartsWith (js "Goal: ") (js "User\x27s request: " ++ p) = false ∧
    jsStartsWith (js "Target Audience: ") (js "User\x27s request: " ++ p) = false := by
  have h : js "User\x27s request: " ++ p = 'U' :: (js "ser\x27s request: " ++ p) := rfl
  rw [h]
  exact ⟨jsStartsWith_head_ne _ _ _ _ (by decide),
    jsStartsWith_head_ne _ _ _ _ (by decide),
    jsStartsWith_head_ne _ _ _ _ (by decide)⟩

theorem pre_facts_tone (v : JSStr) :
    jsStartsWith (js "Tone: ") (js "Tone: " ++ v) = true ∧
    jsStartsWith (js "Goal: ") (js "Tone: " ++ v) = false ∧
    jsStartsWith (js "Target Audience: ") (js "Tone: " ++ v) = false := by
  refine ⟨jsStartsWith_append _ _, ?_, ?_⟩
  · have h : js "Tone: " ++ v = 'T' :: (js "one: " ++ v) := rfl
    rw [h]
    exact jsStartsWith_head_ne _ _ _ _ (by decide)
  · have h : js "Tone: " ++ v = 'T' :: 'o' :: (js "ne: " ++ v) := rfl
    rw [h]
    show jsStartsWith ('T' :: 'a' :: js "rget Audience: ")
      ('T' :: 'o' :: (js "ne: " ++ v)) = false
    have hin : jsStartsWith ('a' :: js "rget Audience: ") ('o' :: (js "ne: " ++ v)) =
        false := jsStartsWith_head_ne _ _ _ _ (by decide)
    simp [jsStartsWith, hin]

theorem pre_facts_goal (v : JSStr) :
    jsStartsWith (js "Tone: ") (js "Goal: " ++ v) = false ∧
    jsStartsWith (js "Goal: ") (js "Goal: " ++ v) = true ∧
    jsStartsWith (js "Target Audience: ") (js "Goal: " ++ v) = false := by
  refine ⟨?_, jsStartsWith_append _ _, ?_⟩
  · have h : js "Goal: " ++ v = 'G' :: (js "oal: " ++ v) := rfl
    rw [h]
    exact jsStartsWith_head_ne _ _ _ _ (by decide)
  · have h : js "Goal: " ++ v = 'G' :: (js "oal: " ++ v) := rfl
    rw [h]
    exact jsStartsWith_head_ne _ _ _ _ (by decide)

theorem pre_facts_aud (v : JSStr) :
    jsStartsWith (js "Tone: ") (js "Target Audience: " ++ v) = false ∧
    jsStartsWith (js "Goal: ") (js "Target Audience: " ++ v) = false ∧
    jsStartsWith (js "Target Audience: ") (js "Target Audience: " ++ v) = true := by
  refine ⟨?_, ?_, jsStartsWith_append _ _⟩
  · rw [jsStartsWith_append_left (js "Tone: ") (js "Target Audience: ") v (by decide)]
    decide
  · have h : js "Target Audience: " ++ v = 'T' :: (js "arget Audience: " ++ v) := rfl
    rw [h]
    exact jsStartsWith_head_ne _ _ _ _ (by decide)

theorem countP_eq_zero_of_all {p : JSStr → Bool} {l : List JSStr}
    (h : ∀ x ∈ l, p x = false) : l.countP p = 0 :=
  List.countP_eq_zero.mpr (fun a ha => by simp [h a ha])

theorem countP_ite_block (c : Prop) [Decidable c] (X : List JSStr) (p : JSStr → Bool)
    (hX : X.countP p = 0) : (if c then X else []).countP p = 0 := by
  by_cases hc : c <;> simp [hc, hX]

theorem countP_ite_line (c : Prop) [Decidable c] (x : JSStr) (p : JSStr → Bool) :
    (if c then [x] else []).countP p =
      if c then (if p x then 1 else 0) else 0 := by
  by_cases hc : c <;> simp [hc, List.countP_cons]

theorem lines_enhancedPrompt_none (h : List Message) (p : JSStr) (hp : '\n' ∉ p)
    (hh : ∀ m ∈ h, '\n' ∉ m.content) :
    splitOnChar '\n' (enhancedPrompt none none none h p) =
      baseLines ++ ((if h.length > 0 then
          [] :: js "Previous conversation context:" :: h.map msgLine else [])
        ++ [[], js "User\x27s request: " ++ p, [],
            js "Generate a tweet that matches these specifications."]) := by
  rw [lines_enhancedPrompt none none none h p hp hh (fun s hs => nomatch hs)
    (fun s hs => nomatch hs) (fun s hs => nomatch hs)]
  rfl

/-! ## C9: optional constraint lines of the composed prompt -/

/-- C9: when tone, goal and audience are all absent, no line of the composed
prompt is a Tone, Goal or Target Audience constraint line (the lines are
omitted entirely, not rendered empty); and for arbitrary combinations each
of the three fields independently contributes exactly one constraint line
when it is truthy and none otherwise. -/
theorem enhancedPrompt_constraint_lines (h : List Message) (p : JSStr)
    (hp : '\n' ∉ p)
    (hh : ∀ m ∈ h, '\n' ∉ m.content) :
    (∀ l ∈ splitOnChar '\n' (enhancedPrompt none none none h p),
        jsStartsWith (js "Tone: ") l = false ∧
        jsStartsWith (js "Goal: ") l = false ∧
        jsStartsWith (js "Target Audience: ") l = false) ∧
    (∀ t g a : Option JSStr,
        (∀ s, t = some s → '\n' ∉ s) →
        (∀ s, g = some s → '\n' ∉ s) →
        (∀ s, a = some s → '\n' ∉ s) →
        ((splitOnChar '\n' (enhancedPrompt t g a h p)).countP
            (fun l => jsStartsWith (js "Tone: ") l) =
          (if jsTruthy t then 1 else 0) ∧
         (splitOnChar '\n' (enhancedPrompt t g a h p)).countP
            (fun l => jsStartsWith (js "Goal: ") l) =
          (if jsTruthy g then 1 else 0) ∧
         (splitOnChar '\n' (enhancedPrompt t g a h p)).countP
            (fun l => jsStartsWith (js "Target Audience: ") l) =
          (if jsTruthy a then 1 else 0))) := by
  constructor
  · intro l hl
    rw [lines_enhancedPrompt_none h p hp hh] at hl
    rcases List.mem_append.mp hl with h1 | h2
    · exact notpre_base l h1
    rcases List.mem_append.mp h2 with h3 | h4
    · by_cases Hh : h.length > 0
      · rw [if_pos Hh] at h3
        rcases List.mem_cons.mp h3 with rfl | h5
        · exact notpre_empty
        rcases List.mem_cons.mp h5 with rfl | h6
        · exact notpre_pcc
        rcases List.mem_map.mp h6 with ⟨m, _, rfl⟩
        exact notpre_msgLine m
      · rw [if_neg Hh] at h3
        exact absurd h3 (List.not_mem_nil l)
    · rcases List.mem_cons.mp h4 with rfl | h5
      · exact notpre_empty
      rcases List.mem_cons.mp h5 with rfl | h6
      · exact notpre_ur p
      rcases List.mem_cons.mp h6 with rfl | h7
      · exact notpre_empty
      rcases List.mem_cons.mp h7 with rfl | h8
      · exact notpre_gline
      · exact absurd h8 (List.not_mem_nil l)
  · intro t g a ht hg ha
    have hHtone : ([] :: js "Previous conversation context:" :: h.map msgLine).countP
        (fun l => jsStartsWith (js "Tone: ") l) = 0 := by
      refine countP_eq_zero_of_all ?_
      intro x hx
      rcases List.mem_cons.mp hx with rfl | hx1
      · exact notpre_empty.1
      rcases List.mem_cons.mp hx1 with rfl | hx2
      · exact notpre_pcc.1
      rcases List.mem_map.mp hx2 with ⟨m, _, rfl⟩
      exact (notpre_msgLine m).1
    have hHgoal : ([] :: js "Previous conversation context:" :: h.map msgLine).countP
        (fun l => jsStartsWith (js "Goal: ") l) = 0 := by
      refine countP_eq_zero_of_all ?_
      intro x hx
      rcases List.mem_cons.mp hx with rfl | hx1
      · exact notpre_empty.2.1
      rcases List.mem_cons.mp hx1 with rfl | hx2
      · exact notpre_pcc.2.1
      rcases List.mem_map.mp hx2 with ⟨m, _, rfl⟩
      exact (notpre_msgLine m).2.1
    have hHaud : ([] :: js "Previous conversation context:" :: h.map msgLine).countP
        (fun l => jsStartsWith (js "Target Audience: ") l) = 0 := by
      refine countP_eq_zero_of_all ?_
      intro x hx
      rcases List.mem_cons.mp hx with rfl | hx1
      · exact notpre_empty.2.2
      rcases List.mem_cons.mp hx1 with rfl | hx2
      · exact notpre_pcc.2.2
      rcases List.mem_map.mp hx2 with ⟨m, _, rfl⟩
      exact (notpre_msgLine m).2.2
    have hFtone : ([[], js "User\x27s request: " ++ p, [],
        js "Generate a tweet that matches these specifications."].countP
          (fun l => jsStartsWith (js "Tone: ") l)) = 0 := by
      refine countP_eq_zero_of_all ?_
      intro x hx
      rcases List.mem_cons.mp hx with rfl | h5
      · exact notpre_empty.1
      rcases List.mem_cons.mp h5 with rfl | h6
      · exact (notpre_ur p).1
      rcases List.mem_cons.mp h6 with rfl | h7
      · exact notpre_empty.1
      rcases List.mem_cons.mp h7 with rfl | h8
      · exact notpre_gline.1
      · exact absurd h8 (List.not_mem_nil x)
    have hFgoal : ([[], js "User\x27s request: " ++ p, [],
        js "Generate a tweet that matches these specifications."].countP
          (fun l => jsStartsWith (js "Goal: ") l)) = 0 := by
      refine countP_eq_zero_of_all ?_
      intro x hx
      rcases List.mem_cons.mp hx with rfl | h5
      · exact notpre_empty.2.1
      rcases List.mem_cons.mp h5 with rfl | h6
      · exact (notpre_ur p).2.1
      rcases List.mem_cons.mp h6 with rfl | h7
      · exact notpre_empty.2.1
      rcases List.mem_cons.mp h7 with rfl | h8
      · exact notpre_gline.2.1
      · exact absurd h8 (List.not_mem_nil x)
    have hFaud : ([[], js "User\x27s request: " ++ p, [],
        js "Generate a tweet that matches these specifications."].countP
          (fun l => jsStartsWith (js "Target Audience: ") l)) = 0 := by
      refine countP_eq_zero_of_all ?_
      intro x hx
      rcases List.mem_cons.mp hx with rfl | h5
      · exact notpre_empty.2.2
      rcases List.mem_cons.mp h5 with rfl | h6
      · exact (notpre_ur p).2.2
      rcases List.mem_cons.mp h6 with rfl | h7
      · exact notpre_empty.2.2
      rcases List.mem_cons.mp h7 with rfl | h8
      · exact notpre_gline.2.2
      · exact absurd h8 (List.not_mem_nil x)
    refine ⟨?_, ?_, ?_⟩
    · rw [lines_enhancedPrompt t g a h p hp hh ht hg ha]
      simp only [List.countP_append]
      rw [countP_eq_zero_of_all (fun l hl => (notpre_base l hl).1),
        countP_ite_line, countP_ite_line, countP_ite_line,
        (pre_facts_tone (t.getD [])).1, (pre_facts_goal (g.getD [])).1,
        (pre_facts_aud (a.getD [])).1,
        countP_ite_block _ _ _ hHtone, hFtone]
      simp
    · rw [lines_enhancedPrompt t g a h p hp hh ht hg ha]
      simp only [List.countP_append]
      rw [countP_eq_zero_of_all (fun l hl => (notpre_base l hl).2.1),
        countP_ite_line, countP_ite_line, countP_ite_line,
        (pre_facts_tone (t.getD [])).2.1, (pre_facts_goal (g.getD [])).2.1,
        (pre_facts_aud (a.getD [])).2.1,
        countP_ite_block _ _ _ hHgoal, hFgoal]
      simp
    · rw [lines_enhancedPrompt t g a h p hp hh ht hg ha]
      simp only [List.countP_append]
      rw [countP_eq_zero_of_all (fun l hl => (notpre_base l hl).2.2),
        countP_ite_line, countP_ite_line, countP_ite_line,
        (pre_facts_tone (t.getD [])).2.2, (pre_facts_goal (g.getD [])).2.2,
        (pre_facts_aud (a.getD [])).2.2,
        countP_ite_block _ _ _ hHaud, hFaud]
      simp

theorem enhancedPrompt_constraint_lines_witness :
    ('\n' ∉ js "write about Mars") ∧
    (∀ m ∈ [({ role := .user, content := js "hi" } : Message)], '\n' ∉ m.content) ∧
    ((∀ l ∈ splitOnChar '\n' (enhancedPrompt none none none
          [{ role := .user, content := js "hi" }] (js "write about Mars")),
        jsStartsWith (js "Tone: ") l = false ∧
        jsStartsWith (js "Goal: ") l = false ∧
        jsStartsWith (js "Target Audience: ") l = false) ∧
     (∀ t g a : Option JSStr,
        (∀ s, t = some s → '\n' ∉ s) →
        (∀ s, g = some s → '\n' ∉ s) →
        (∀ s, a = some s → '\n' ∉ s) →
        ((splitOnChar '\n' (enhancedPrompt t g a
              [{ role := .user, content := js "hi" }] (js "write about Mars"))).countP
            (fun l => jsStartsWith (js "Tone: ") l) =
          (if jsTruthy t then 1 else 0) ∧
         (splitOnChar '\n' (enhancedPrompt t g a
              [{ role := .user, content := js "hi" }] (js "write about Mars"))).countP
            (fun l => jsStartsWith (js "Goal: ") l) =
          (if jsTruthy g then 1 else 0) ∧
         (splitOnChar '\n' (enhancedPrompt t g a
              [{ role := .user, content := js "hi" }] (js "write about Mars"))).countP
            (fun l => jsStartsWith (js "Target Audience: ") l) =
          (if jsTruthy a then 1 else 0)))) :=
  ⟨by decide, by decide,
    enhancedPrompt_constraint_lines [{ role := .user, content := js "hi" }]
      (js "write about Mars") (by decide) (by decide)⟩
